import Mathlib

/-!
# Verification of the `TimeSeriesCache` core of `src/src/app/server.js`

This file shallowly embeds the caching layer of the repository — the class
`TimeSeriesCache` (its `Map`-backed store, `isExpired`, `set`, `get`,
`fetchData` and the body of one `startAutoRefresh` pass) and the route
handler's `cacheKey` derivation — and proves / refutes the frozen claims of
the specification against it.

Modelling conventions:
* JS millisecond timestamps (`Date.now()`) are `Int`; the current time is an
  explicit argument threaded to every operation that reads the clock.
* The `Map` is an association list `List (String × CacheEntry α)` in
  insertion order; `Map.get` / `Map.set` / `Map.delete` become `mapGet`,
  `mapSet` (update in place, else append) and `mapDelete`.
* The payload type is an opaque parameter `α` together with a JavaScript
  truthiness function `truthy : α → Bool` (the JS `null` returned by
  `get` on a miss is the `none` of `Option α` and is always falsy).
* A settled promise / an `await` result is `Except String α`: `Except.ok`
  for fulfilment, `Except.error` for rejection; a thrown error that
  propagates out of a method becomes the `Except.error` component of its
  result, paired with the mutated cache state at the moment of the throw.
* `fetchData` is split at its single `await` suspension point into
  `fetchPhase1` (the synchronous prefix: cache probe and, on a miss, the
  invocation of the loader) and `fetchPhase2` (the continuation after the
  `await`: store and return).  `fetchData` is their sequential composition;
  interleavings of concurrent calls compose the phases explicitly.
* Loader invocations are counted explicitly (the `Nat` component of
  `fetchPhase1` / `fetchData` results) so that "invokes the loader exactly
  once" is a provable statement.
-/

/-- `Map.get` on a `Map` modelled as an association list in insertion
order: the value of the first (in a well-formed `Map`, only) binding of
`key`, or `none`. -/
def mapGet {β : Type} : List (String × β) → String → Option β
  | [], _ => none
  | (k, v) :: rest, key => if k = key then some v else mapGet rest key

/-- `Map.set`: replace the value of the existing binding of `key` in place
(keeping its insertion position), else append a new binding. -/
def mapSet {β : Type} : List (String × β) → String → β → List (String × β)
  | [], key, v => [(key, v)]
  | (k, w) :: rest, key, v =>
      if k = key then (key, v) :: rest else (k, w) :: mapSet rest key v

/-- `Map.delete`: remove the binding of `key` (a no-op when absent).  A
well-formed `Map` binds each key at most once, so removing every binding of
`key` coincides with `Map.delete`. -/
def mapDelete {β : Type} : List (String × β) → String → List (String × β)
  | [], _ => []
  | (k, w) :: rest, key =>
      if k = key then mapDelete rest key else (k, w) :: mapDelete rest key

/-- A cache entry as built by `set`: `{ data, timestamp: Date.now() }`
(server.js line 18). -/
structure CacheEntry (α : Type) where
  data : α
  timestamp : Int
deriving Repr, DecidableEq

/-- The state of a `TimeSeriesCache` object (server.js lines 5–11):
the `Map` field `cache`, the two durations, and the `fetchFunction`
property read by `startAutoRefresh` (line 49).  No code in the repository
ever assigns `this.fetchFunction`, so on every object constructed by the
class it is `undefined`; the field is an `Option` whose `none` models
`undefined`. -/
structure TimeSeriesCache (α : Type) where
  cache : List (String × CacheEntry α)
  expirationDuration : Int
  refreshInterval : Int
  fetchFunction : Option (String → Except String α)

/-- The constructor `new TimeSeriesCache(expirationDuration, refreshInterval)`
(server.js lines 6–11): empty map, the given durations, and no
`fetchFunction` property.  (The `startAutoRefresh()` call only registers the
interval timer; each timer tick is modelled separately by `refreshPass`.) -/
def TimeSeriesCache.new {α : Type} (expirationDuration refreshInterval : Int) :
    TimeSeriesCache α :=
  { cache := []
    expirationDuration := expirationDuration
    refreshInterval := refreshInterval
    fetchFunction := none }

/-- `isExpired(entry)` (server.js lines 13–15):
`Date.now() - entry.timestamp > this.expirationDuration`. -/
def TimeSeriesCache.isExpired {α : Type} (c : TimeSeriesCache α) (now : Int)
    (entry : CacheEntry α) : Bool :=
  decide (now - entry.timestamp > c.expirationDuration)

/-- `set(key, data)` (server.js lines 17–19):
`this.cache.set(key, { data, timestamp: Date.now() })`. -/
def TimeSeriesCache.set {α : Type} (c : TimeSeriesCache α) (key : String)
    (data : α) (now : Int) : TimeSeriesCache α :=
  { c with cache := mapSet c.cache key ⟨data, now⟩ }

/-- `get(key)` (server.js lines 21–28): return the entry's data if a binding
exists and is not expired; otherwise `this.cache.delete(key)` and return
`null` (`none`).  The result pairs the returned value with the cache state
after the call. -/
def TimeSeriesCache.get {α : Type} (c : TimeSeriesCache α) (key : String)
    (now : Int) : Option α × TimeSeriesCache α :=
  match mapGet c.cache key with
  | some entry =>
      if c.isExpired now entry then
        (none, { c with cache := mapDelete c.cache key })
      else
        (some entry.data, c)
  | none => (none, { c with cache := mapDelete c.cache key })

/-- Outcome of the synchronous prefix of a `fetchData` call:
either it returned without suspending (cache hit), or it invoked the loader
and is suspended at the `await` with the loader's eventual result. -/
inductive FetchStep (α : Type) where
  | done : α → FetchStep α
  | pending : Except String α → FetchStep α
deriving Repr

/-- The synchronous prefix of `fetchData(key, fetchFunction)` (server.js
lines 30–39, up to the `await`): probe the cache with `get`; if the probed
value is truthy, return it (a hit); otherwise invoke `fetchFunction()` once
and suspend on its result.  Returns the step outcome, the cache state so
far, and the number of loader invocations performed (0 or 1). -/
def fetchPhase1 {α : Type} (truthy : α → Bool) (c : TimeSeriesCache α)
    (key : String) (fetchFunction : Unit → Except String α) (now : Int) :
    FetchStep α × TimeSeriesCache α × Nat :=
  match c.get key now with
  | (some cachedData, c1) =>
      if truthy cachedData then (FetchStep.done cachedData, c1, 0)
      else (FetchStep.pending (fetchFunction ()), c1, 1)
  | (none, c1) => (FetchStep.pending (fetchFunction ()), c1, 1)

/-- The continuation of `fetchData` after its `await` (server.js lines
39–41): if the awaited fetch rejected, the error propagates (the cache is
untouched by this phase); if it fulfilled with `newData`, store it via
`set` and return it. -/
def fetchPhase2 {α : Type} (c : TimeSeriesCache α) (key : String)
    (awaited : Except String α) (now : Int) :
    Except String α × TimeSeriesCache α :=
  match awaited with
  | Except.error e => (Except.error e, c)
  | Except.ok newData => (Except.ok newData, c.set key newData now)

/-- `async fetchData(key, fetchFunction)` (server.js lines 30–42) run to
completion with no interleaved activity: the synchronous prefix followed,
when it suspended, by the continuation.  Returns the settled result
(`ok` data / `error`), the final cache state, and the number of loader
invocations. -/
def TimeSeriesCache.fetchData {α : Type} (truthy : α → Bool)
    (c : TimeSeriesCache α) (key : String)
    (fetchFunction : Unit → Except String α) (now : Int) :
    Except String α × TimeSeriesCache α × Nat :=
  match fetchPhase1 truthy c key fetchFunction now with
  | (FetchStep.done d, c1, n) => (Except.ok d, c1, n)
  | (FetchStep.pending r, c1, n) =>
      match fetchPhase2 c1 key r now with
      | (res, c2) => (res, c2, n)

/-- The evaluation of `this.fetchFunction(key)` (server.js line 49): calling
the property when it is `undefined` throws a `TypeError`, which rejects the
surrounding async function; otherwise it is the stored function's result. -/
def TimeSeriesCache.callFetchFunction {α : Type} (c : TimeSeriesCache α)
    (key : String) : Except String α :=
  match c.fetchFunction with
  | none => Except.error "TypeError: this.fetchFunction is not a function"
  | some f => f key

/-- The `for (const [key, entry] of this.cache.entries())` body of one
`startAutoRefresh` timer tick (server.js lines 46–52), iterating a snapshot
of the entries: skip expired entries; for a non-expired entry, evaluate
`await this.fetchFunction(key)` — a rejection propagates out of the async
callback, aborting the rest of the pass with the cache as mutated so far —
and on success overwrite the entry via `set`. -/
def refreshEntries {α : Type} (now : Int) (c : TimeSeriesCache α) :
    List (String × CacheEntry α) → Except String Unit × TimeSeriesCache α
  | [] => (Except.ok (), c)
  | (key, entry) :: rest =>
      if c.isExpired now entry then refreshEntries now c rest
      else
        match c.callFetchFunction key with
        | Except.error e => (Except.error e, c)
        | Except.ok refreshedData =>
            refreshEntries now (c.set key refreshedData now) rest

/-- One pass of the background refresh loop (one `setInterval` tick of
`startAutoRefresh`, server.js lines 44–54), at time `now`:
`refreshEntries` over the current entries of the map. -/
def TimeSeriesCache.refreshPass {α : Type} (c : TimeSeriesCache α)
    (now : Int) : Except String Unit × TimeSeriesCache α :=
  refreshEntries now c c.cache

/-- The route handler's key derivation (server.js line 104):
``cacheKey = `${symbol}-${period}-${start}-${end}` ``. -/
def cacheKey (symbol period start «end» : String) : String :=
  symbol ++ "-" ++ period ++ "-" ++ start ++ "-" ++ «end»

/-- JS truthiness of the value returned by `get`: the `null` of a miss is
falsy; a returned payload has the payload's own truthiness. -/
def truthyOpt {α : Type} (truthy : α → Bool) : Option α → Bool
  | some d => truthy d
  | none => false

/-! ## Association-list (`Map`) lemmas -/

theorem mapGet_mapSet_self {β : Type} (m : List (String × β)) (key : String)
    (v : β) : mapGet (mapSet m key v) key = some v := by
  induction m with
  | nil => simp [mapGet, mapSet]
  | cons p rest ih =>
      obtain ⟨k, w⟩ := p
      by_cases h : k = key
      · simp [mapSet, h, mapGet]
      · simp [mapSet, h, mapGet, ih]

theorem mapGet_mapSet_ne {β : Type} (m : List (String × β)) (key k' : String)
    (v : β) (h : k' ≠ key) : mapGet (mapSet m key v) k' = mapGet m k' := by
  induction m with
  | nil => simp [mapGet, mapSet, Ne.symm h]
  | cons p rest ih =>
      obtain ⟨k, w⟩ := p
      by_cases hk : k = key
      · subst hk
        simp [mapSet, mapGet, Ne.symm h]
      · simp only [mapSet, hk, if_false, mapGet, ih]

theorem mapGet_mapDelete_self {β : Type} (m : List (String × β))
    (key : String) : mapGet (mapDelete m key) key = none := by
  induction m with
  | nil => rfl
  | cons p rest ih =>
      obtain ⟨k, w⟩ := p
      by_cases h : k = key
      · simpa [mapDelete, h] using ih
      · simpa [mapDelete, h, mapGet] using ih

theorem mapGet_mapDelete_ne {β : Type} (m : List (String × β)) (key k' : String)
    (h : k' ≠ key) : mapGet (mapDelete m key) k' = mapGet m k' := by
  induction m with
  | nil => rfl
  | cons p rest ih =>
      obtain ⟨k, w⟩ := p
      by_cases hk : k = key
      · subst hk
        simp [mapDelete, mapGet, Ne.symm h, ih]
      · by_cases hk' : k = k'
        · subst hk'
          simp [mapDelete, hk, mapGet]
        · simp [mapDelete, hk, mapGet, hk', ih]

theorem mapDelete_of_get_none {β : Type} (m : List (String × β)) (key : String)
    (h : mapGet m key = none) : mapDelete m key = m := by
  induction m with
  | nil => rfl
  | cons p rest ih =>
      obtain ⟨k, w⟩ := p
      by_cases hk : k = key
      · simp [mapGet, hk] at h
      · simp only [mapGet, hk, if_false] at h
        simp [mapDelete, hk, ih h]

/-! ## Characterisation of `get` -/

theorem get_of_valid {α : Type} (c : TimeSeriesCache α) (key : String)
    (now : Int) (e : CacheEntry α) (hmem : mapGet c.cache key = some e)
    (hvalid : now - e.timestamp ≤ c.expirationDuration) :
    c.get key now = (some e.data, c) := by
  simp [TimeSeriesCache.get, hmem, TimeSeriesCache.isExpired, not_lt.2 hvalid]

theorem get_of_expired {α : Type} (c : TimeSeriesCache α) (key : String)
    (now : Int) (e : CacheEntry α) (hmem : mapGet c.cache key = some e)
    (hexp : now - e.timestamp > c.expirationDuration) :
    c.get key now = (none, { c with cache := mapDelete c.cache key }) := by
  simp [TimeSeriesCache.get, hmem, TimeSeriesCache.isExpired, hexp]

theorem get_of_absent {α : Type} (c : TimeSeriesCache α) (key : String)
    (now : Int) (hmem : mapGet c.cache key = none) :
    c.get key now = (none, c) := by
  simp [TimeSeriesCache.get, hmem, mapDelete_of_get_none c.cache key hmem]

/-! ## Claim C2 — `get` contract -/

/-- **C2.** For every key and time, `get(key)` returns the stored payload iff
an entry exists whose age (`now - timestamp`) is ≤ `ttl`
(`expirationDuration`); otherwise it removes the entry (if present) and
returns absent, with no side effect beyond that removal (on a wholly absent
key the state is unchanged), and other keys are never touched.  `get` has no
loader argument at all, so it cannot invoke the Fetcher. -/
theorem C2_get_contract {α : Type} (c : TimeSeriesCache α) (key : String)
    (now : Int) :
    (∀ e, mapGet c.cache key = some e →
        (now - e.timestamp ≤ c.expirationDuration →
            c.get key now = (some e.data, c)) ∧
        (now - e.timestamp > c.expirationDuration →
            (c.get key now).1 = none ∧
            (c.get key now).2.cache = mapDelete c.cache key ∧
            mapGet (c.get key now).2.cache key = none ∧
            ∀ k', k' ≠ key →
              mapGet (c.get key now).2.cache k' = mapGet c.cache k')) ∧
    (mapGet c.cache key = none →
        (c.get key now).1 = none ∧ (c.get key now).2 = c) := by
  refine ⟨fun e hmem =>
    ⟨fun hvalid => get_of_valid c key now e hmem hvalid, fun hexp => ?_⟩,
    fun habs => by rw [get_of_absent c key now habs]; exact ⟨rfl, rfl⟩⟩
  rw [get_of_expired c key now e hmem hexp]
  exact ⟨rfl, rfl, mapGet_mapDelete_self _ _,
    fun k' hk' => mapGet_mapDelete_ne _ _ _ hk'⟩

/-- Scenario A state: a `TimeSeriesCache` with the default durations
(`ttl = 600000`, `refreshInterval = 60000`) after
`set("AAPL-1min-t0-t1", D1)` at `T = 0`, with `D1` the payload `1`. -/
def scenarioA : TimeSeriesCache Nat :=
  (TimeSeriesCache.new 600000 60000).set "AAPL-1min-t0-t1" 1 0

theorem C2_get_contract_witness :
    (scenarioA.get "AAPL-1min-t0-t1" 500000).1 = some 1 ∧
    (scenarioA.get "AAPL-1min-t0-t1" 600001).1 = none ∧
    mapGet (scenarioA.get "AAPL-1min-t0-t1" 600001).2.cache
      "AAPL-1min-t0-t1" = none := by
  have h1 := ((C2_get_contract scenarioA "AAPL-1min-t0-t1" 500000).1
    ⟨1, 0⟩ (by decide)).1 (by decide)
  have h2 := ((C2_get_contract scenarioA "AAPL-1min-t0-t1" 600001).1
    ⟨1, 0⟩ (by decide)).2 (by decide)
  exact ⟨by rw [h1], h2.1, h2.2.2.1⟩

/-! ## Claim C8 — idempotence of `get` -/

/-- **C8.** Repeated `get(k)` without an intervening `set`: while the TTL has
not elapsed the result is the same each time and the state is untouched;
at the first call whose time exceeds the TTL the result flips to absent and
that call evicts the entry; any later `get` returns absent again and leaves
the (already evicted) state unchanged — the flip happens exactly once. -/
theorem C8_get_idempotent {α : Type} (c : TimeSeriesCache α) (key : String)
    (e : CacheEntry α) (t1 t2 : Int) (hmem : mapGet c.cache key = some e)
    (hle : t1 ≤ t2) :
    (t2 - e.timestamp ≤ c.expirationDuration →
        c.get key t1 = (some e.data, c) ∧ c.get key t2 = (some e.data, c)) ∧
    (t1 - e.timestamp ≤ c.expirationDuration →
     t2 - e.timestamp > c.expirationDuration →
        c.get key t1 = (some e.data, c) ∧
        (c.get key t2).1 = none ∧
        mapGet (c.get key t2).2.cache key = none) ∧
    (t1 - e.timestamp > c.expirationDuration →
        (c.get key t1).1 = none ∧
        (c.get key t1).2.get key t2 = (none, (c.get key t1).2)) := by
  refine ⟨fun hv2 => ?_, fun hv1 hx2 => ?_, fun hx1 => ?_⟩
  · have hv1 : t1 - e.timestamp ≤ c.expirationDuration := by omega
    exact ⟨get_of_valid c key t1 e hmem hv1, get_of_valid c key t2 e hmem hv2⟩
  · refine ⟨get_of_valid c key t1 e hmem hv1, ?_, ?_⟩
    · rw [get_of_expired c key t2 e hmem hx2]
    · rw [get_of_expired c key t2 e hmem hx2]
      exact mapGet_mapDelete_self _ _
  · rw [get_of_expired c key t1 e hmem hx1]
    exact ⟨rfl, get_of_absent _ key t2 (mapGet_mapDelete_self _ _)⟩

/-- A cache holding one entry, set at `T = 0`, for the C8 witness. -/
def stateC8 : TimeSeriesCache Nat :=
  (TimeSeriesCache.new 600000 60000).set "K8" 4 0

theorem C8_get_idempotent_witness :
    stateC8.get "K8" 100000 = (some 4, stateC8) ∧
    stateC8.get "K8" 200000 = (some 4, stateC8) := by
  exact (C8_get_idempotent stateC8 "K8" ⟨4, 0⟩ 100000 200000
    (by decide) (by decide)).1 (by decide)

/-! ## Claim C9 — totality of `get` and `set` -/

/-- **C9.** `set` and `get` are total functions of the state (they are plain
Lean functions, with no error component in their result types, mirroring
that the JS bodies contain no `throw` and call only `Map` primitives):
`set(key, data)` always succeeds and afterwards the entry for `key` is
exactly `{data, timestamp := now}`, other keys being untouched; `get`
always returns either the stored payload of the entry or absent.  Neither
takes a loader, so no failure of theirs could originate anywhere but the
Fetcher. -/
theorem C9_get_set_total {α : Type} (c : TimeSeriesCache α) (key k' : String)
    (d : α) (now : Int) :
    mapGet ((c.set key d now).cache) key = some ⟨d, now⟩ ∧
    (k' ≠ key → mapGet ((c.set key d now).cache) k' = mapGet c.cache k') ∧
    ((c.get key now).1 = none ∨
        ∃ e, mapGet c.cache key = some e ∧ (c.get key now).1 = some e.data) := by
  refine ⟨mapGet_mapSet_self _ _ _, fun h => mapGet_mapSet_ne _ _ _ _ h, ?_⟩
  rcases hm : mapGet c.cache key with _ | e
  · left
    rw [get_of_absent c key now hm]
  · by_cases hexp : now - e.timestamp > c.expirationDuration
    · left
      rw [get_of_expired c key now e hm hexp]
    · right
      exact ⟨e, rfl, by rw [get_of_valid c key now e hm (not_lt.1 hexp)]⟩

theorem C9_get_set_total_witness :
    mapGet (((TimeSeriesCache.new 600000 60000 : TimeSeriesCache Nat).set
      "S" 9 7).cache) "S" = some ⟨9, 7⟩ ∧
    mapGet (((TimeSeriesCache.new 600000 60000 : TimeSeriesCache Nat).set
      "S" 9 7).cache) "T" =
      mapGet (TimeSeriesCache.new 600000 60000 :
        TimeSeriesCache Nat).cache "T" := by
  have h := C9_get_set_total
    (TimeSeriesCache.new 600000 60000 : TimeSeriesCache Nat) "S" "T" 9 7
  exact ⟨h.1, h.2.1 (by decide)⟩

/-! ## Characterisation of `fetchData` -/

theorem fetchData_of_truthy_hit {α : Type} (truthy : α → Bool)
    (c : TimeSeriesCache α) (key : String) (ff : Unit → Except String α)
    (now : Int) (e : CacheEntry α) (hmem : mapGet c.cache key = some e)
    (hvalid : now - e.timestamp ≤ c.expirationDuration)
    (htruthy : truthy e.data = true) :
    c.fetchData truthy key ff now = (Except.ok e.data, c, 0) := by
  simp [TimeSeriesCache.fetchData, fetchPhase1,
    get_of_valid c key now e hmem hvalid, htruthy]

theorem fetchData_miss_ok {α : Type} (truthy : α → Bool)
    (c : TimeSeriesCache α) (key : String) (ff : Unit → Except String α)
    (now : Int) (d : α)
    (hmiss : truthyOpt truthy (c.get key now).1 = false)
    (hok : ff () = Except.ok d) :
    c.fetchData truthy key ff now =
      (Except.ok d, ((c.get key now).2).set key d now, 1) := by
  rcases hg : c.get key now with ⟨r, c1⟩
  rw [hg] at hmiss
  rcases r with _ | d'
  · simp [TimeSeriesCache.fetchData, fetchPhase1, hg, fetchPhase2, hok]
  · simp only [truthyOpt] at hmiss
    simp [TimeSeriesCache.fetchData, fetchPhase1, hg, hmiss, fetchPhase2, hok]

theorem fetchData_miss_error {α : Type} (truthy : α → Bool)
    (c : TimeSeriesCache α) (key : String) (ff : Unit → Except String α)
    (now : Int) (err : String)
    (hmiss : truthyOpt truthy (c.get key now).1 = false)
    (herr : ff () = Except.error err) :
    c.fetchData truthy key ff now = (Except.error err, (c.get key now).2, 1) := by
  rcases hg : c.get key now with ⟨r, c1⟩
  rw [hg] at hmiss
  rcases r with _ | d'
  · simp [TimeSeriesCache.fetchData, fetchPhase1, hg, fetchPhase2, herr]
  · simp only [truthyOpt] at hmiss
    simp [TimeSeriesCache.fetchData, fetchPhase1, hg, hmiss, fetchPhase2, herr]

/-! ## Claim C4 — loader failure on a miss -/

/-- **C4.** If `fetchData` encounters a miss in the claim's sense (entry
absent, or present but expired) and the loader fails, the failure
propagates to the caller unchanged, and afterwards no entry for the key
exists (nothing was stored: no negative caching); entries of other keys
are untouched. -/
theorem C4_loader_failure_propagates {α : Type} (truthy : α → Bool)
    (c : TimeSeriesCache α) (key : String) (ff : Unit → Except String α)
    (err : String) (now : Int)
    (hmiss : mapGet c.cache key = none ∨
        ∃ e, mapGet c.cache key = some e ∧
          now - e.timestamp > c.expirationDuration)
    (hfail : ff () = Except.error err) :
    (c.fetchData truthy key ff now).1 = Except.error err ∧
    mapGet (c.fetchData truthy key ff now).2.1.cache key = none ∧
    ∀ k', k' ≠ key →
      mapGet (c.fetchData truthy key ff now).2.1.cache k' = mapGet c.cache k' := by
  rcases hmiss with habs | ⟨e, hmem, hexp⟩
  · have hg := get_of_absent c key now habs
    have hm : truthyOpt truthy (c.get key now).1 = false := by rw [hg]; rfl
    rw [fetchData_miss_error truthy c key ff now err hm hfail, hg]
    exact ⟨rfl, habs, fun k' _ => rfl⟩
  · have hg := get_of_expired c key now e hmem hexp
    have hm : truthyOpt truthy (c.get key now).1 = false := by rw [hg]; rfl
    rw [fetchData_miss_error truthy c key ff now err hm hfail, hg]
    exact ⟨rfl, mapGet_mapDelete_self _ _,
      fun k' hk' => mapGet_mapDelete_ne _ _ _ hk'⟩

/-- The failing loader of Scenario C. -/
def scenarioCLoader : Unit → Except String Nat :=
  fun _ => Except.error "upstream error"

theorem C4_loader_failure_propagates_witness :
    ((TimeSeriesCache.new 600000 60000 : TimeSeriesCache Nat).fetchData
        (fun _ => true) "X" scenarioCLoader 0).1 =
      Except.error "upstream error" ∧
    mapGet ((TimeSeriesCache.new 600000 60000 :
        TimeSeriesCache Nat).fetchData
        (fun _ => true) "X" scenarioCLoader 0).2.1.cache "X" = none := by
  have h := C4_loader_failure_propagates (fun _ => true)
    (TimeSeriesCache.new 600000 60000 : TimeSeriesCache Nat) "X"
    scenarioCLoader "upstream error" 0 (Or.inl (by decide)) rfl
  exact ⟨h.1, h.2.1⟩

/-! ## Claim C6 — `fetchOrLoad` (`fetchData`) hit/miss contract -/

/-- JavaScript truthiness on an `Int` payload: `0` is falsy. -/
def intTruthy : Int → Bool := fun d => d != 0

/-- A cache with a *valid* entry for `"X"` whose payload is the falsy value
`0` (set at `T = 0`, default durations). -/
def stateC6 : TimeSeriesCache Int :=
  (TimeSeriesCache.new 600000 60000).set "X" 0 0

/-- A loader that succeeds with `7`. -/
def loaderC6 : Unit → Except String Int := fun _ => Except.ok 7

/-- **C6 counterexample.** The claim says that when the key has a valid
(unexpired) entry, `fetchData` returns the cached payload without invoking
the loader.  False: at `T = 10`, `"X"` has a valid entry (age `10 ≤ ttl`)
with stored payload `0`, yet `fetchData` invokes the loader (invocation
count `1`, not `0`) and returns the loader's `7`, not the cached `0` —
because the hit test is JS truthiness of the payload, not presence. -/
theorem C6_counterexample :
    mapGet stateC6.cache "X" = some ⟨0, 0⟩ ∧
    ((10 : Int) - (0 : Int) ≤ stateC6.expirationDuration) ∧
    (stateC6.fetchData intTruthy "X" loaderC6 10).2.2 = 1 ∧
    (stateC6.fetchData intTruthy "X" loaderC6 10).1 = Except.ok 7 := by
  exact ⟨by decide, by decide, rfl, rfl⟩

/-- **C6 (amended).** `fetchData` returns the cached payload with zero
loader invocations when the key has a valid entry *whose payload is
truthy*; on a miss in the code's sense (absent, expired, or a falsy probed
value) it invokes the loader exactly once and, when the loader succeeds,
stores its result via `set` under the key and returns it. -/
theorem C6_fetchData_contract {α : Type} (truthy : α → Bool)
    (c : TimeSeriesCache α) (key : String) (ff : Unit → Except String α)
    (now : Int) :
    (∀ e, mapGet c.cache key = some e →
        now - e.timestamp ≤ c.expirationDuration → truthy e.data = true →
        c.fetchData truthy key ff now = (Except.ok e.data, c, 0)) ∧
    (truthyOpt truthy (c.get key now).1 = false →
        ∀ d, ff () = Except.ok d →
        c.fetchData truthy key ff now =
          (Except.ok d, ((c.get key now).2).set key d now, 1)) := by
  exact ⟨fun e hmem hvalid htruthy =>
      fetchData_of_truthy_hit truthy c key ff now e hmem hvalid htruthy,
    fun hmiss d hok => fetchData_miss_ok truthy c key ff now d hmiss hok⟩

/-- A cache with a valid, truthy entry for `"W"`. -/
def stateC6w : TimeSeriesCache Int :=
  (TimeSeriesCache.new 600000 60000).set "W" 5 0

theorem C6_fetchData_contract_witness :
    stateC6w.fetchData intTruthy "W" loaderC6 100 =
      (Except.ok 5, stateC6w, 0) ∧
    ((TimeSeriesCache.new 600000 60000 : TimeSeriesCache Int).fetchData
      intTruthy "M" loaderC6 0).2.2 = 1 := by
  have h1 := (C6_fetchData_contract intTruthy stateC6w "W" loaderC6 100).1
    ⟨5, 0⟩ (by decide) (by decide) (by decide)
  have h2 := (C6_fetchData_contract intTruthy
    (TimeSeriesCache.new 600000 60000 : TimeSeriesCache Int) "M" loaderC6 0).2
    (by decide) 7 rfl
  exact ⟨h1, by rw [h2]⟩

/-! ## Claim C10 — falsy valid payload is treated as a miss -/

/-- **C10.** If the key holds a valid (unexpired) entry whose stored payload
is falsy, `fetchData` treats the call as a miss: it invokes the loader
(count `1`), overwrites the entry via `set` (afterwards the entry is the
loader's result stamped `now`), and returns the loader's result instead of
the stored payload — the hit/miss decision is a truthiness check on the
payload. -/
theorem C10_falsy_payload_is_miss {α : Type} (truthy : α → Bool)
    (c : TimeSeriesCache α) (key : String) (ff : Unit → Except String α)
    (now : Int) (e : CacheEntry α) (d : α)
    (hmem : mapGet c.cache key = some e)
    (hvalid : now - e.timestamp ≤ c.expirationDuration)
    (hfalsy : truthy e.data = false)
    (hok : ff () = Except.ok d) :
    c.fetchData truthy key ff now = (Except.ok d, c.set key d now, 1) ∧
    mapGet ((c.fetchData truthy key ff now).2.1.cache) key = some ⟨d, now⟩ := by
  have hg := get_of_valid c key now e hmem hvalid
  have hm : truthyOpt truthy (c.get key now).1 = false := by
    rw [hg]; exact hfalsy
  have h := fetchData_miss_ok truthy c key ff now d hm hok
  rw [hg] at h
  exact ⟨h, by rw [h]; exact mapGet_mapSet_self c.cache key ⟨d, now⟩⟩

/-- A cache with a valid entry for `"F"` holding the falsy payload `0`. -/
def stateC10 : TimeSeriesCache Int :=
  (TimeSeriesCache.new 600000 60000).set "F" 0 0

/-- A loader that succeeds with `3`. -/
def loaderC10 : Unit → Except String Int := fun _ => Except.ok 3

theorem C10_falsy_payload_is_miss_witness :
    stateC10.fetchData intTruthy "F" loaderC10 50 =
      (Except.ok 3, stateC10.set "F" 3 50, 1) := by
  exact (C10_falsy_payload_is_miss intTruthy stateC10 "F" loaderC10 50
    ⟨0, 0⟩ 3 (by decide) (by decide) (by decide) rfl).1

/-! ## Refresh-pass lemmas -/

theorem mapGet_mem {β : Type} (m : List (String × β)) (key : String) (v : β)
    (h : mapGet m key = some v) : (key, v) ∈ m := by
  induction m with
  | nil => simp [mapGet] at h
  | cons p rest ih =>
      obtain ⟨k, w⟩ := p
      by_cases hk : k = key
      · subst hk
        simp [mapGet] at h
        subst h
        exact List.mem_cons_self _ _
      · simp only [mapGet, hk, if_false] at h
        exact List.mem_cons_of_mem _ (ih h)

/-- With no `fetchFunction` property (the only state the class ever
constructs), a refresh pass never changes the cache: it either skips every
entry (all expired) or throws at the first non-expired one before any
`set`. -/
theorem refreshEntries_state_of_no_fetchFunction {α : Type}
    (c : TimeSeriesCache α) (now : Int)
    (hff : c.fetchFunction = none) :
    ∀ l : List (String × CacheEntry α), (refreshEntries now c l).2 = c := by
  intro l
  induction l with
  | nil => rfl
  | cons p rest ih =>
      obtain ⟨k, e⟩ := p
      by_cases hx : c.isExpired now e
      · simpa [refreshEntries, hx] using ih
      · simp [refreshEntries, hx, TimeSeriesCache.callFetchFunction, hff]

/-- With no `fetchFunction` property, a pass that reaches any non-expired
entry rejects with the `TypeError`, which propagates out of the loop. -/
theorem refreshEntries_error_of_valid_entry {α : Type}
    (c : TimeSeriesCache α) (now : Int) (key : String) (e : CacheEntry α)
    (hff : c.fetchFunction = none) :
    ∀ l : List (String × CacheEntry α), (key, e) ∈ l →
      c.isExpired now e = false →
      (refreshEntries now c l).1 =
        Except.error "TypeError: this.fetchFunction is not a function" := by
  intro l
  induction l with
  | nil => intro hmem; simp at hmem
  | cons p rest ih =>
      intro hmem hvalid
      obtain ⟨k, e'⟩ := p
      rcases List.mem_cons.1 hmem with hhead | htail
      · obtain ⟨rfl, rfl⟩ := Prod.mk.injEq .. ▸ hhead
        simp [refreshEntries, hvalid, TimeSeriesCache.callFetchFunction, hff]
      · by_cases hx : c.isExpired now e'
        · simpa [refreshEntries, hx] using ih htail hvalid
        · simp [refreshEntries, hx, TimeSeriesCache.callFetchFunction, hff]

/-! ## Claim C1 — background refresh pass (Scenario B) -/

/-- Scenario B state: default durations (`ttl = 600000`,
`refreshInterval = 60000`), `set("K", D1)` at `T = 0`, with `D1` the
payload `1`. -/
def scenarioB : TimeSeriesCache Nat :=
  (TimeSeriesCache.new 600000 60000).set "K" 1 0

/-- **C1 (code bug).** The claim describes the intended behaviour of
`startAutoRefresh`: each pass re-invokes the Fetcher for every still-valid
key and overwrites the entry via `set`, so in Scenario B `get` at
`T = 120000` returns the refreshed `D2`.  The code cannot do this: line 49
calls `this.fetchFunction(key)`, but no code ever defines a `fetchFunction`
property (the constructed object has none), so the call throws
`TypeError` and rejects the pass at its first valid entry.  Evaluating the
embedded code at Scenario B: the `T = 60000` pass errors, the cache is
unchanged, and `get` at `T = 120000` still returns `D1` (`1`), never a
refreshed `D2`. -/
theorem C1_refresh_pass_broken :
    scenarioB.fetchFunction = none ∧
    (scenarioB.refreshPass 60000).1 =
      Except.error "TypeError: this.fetchFunction is not a function" ∧
    (scenarioB.refreshPass 60000).2 = scenarioB ∧
    ((scenarioB.refreshPass 60000).2.get "K" 120000).1 = some 1 :=
  ⟨rfl, rfl, rfl, rfl⟩

/-! ## Claim C3 — refresh-failure policy -/

/-- A cache holding two valid entries `"Y"` and `"Z"` (set at `T = 0`,
default durations), for the C3 counterexample. -/
def stateC3 : TimeSeriesCache Nat :=
  ((TimeSeriesCache.new 600000 60000).set "Y" 5 0).set "Z" 6 0

/-- **C3 counterexample.** The claim says a failing refresh fetch is
logged and the loop continues to the next key, never propagating an error
out of the loop.  False: at `T = 1000` both entries are valid, the refresh
fetch for the first key fails (the `TypeError` of the undefined
`this.fetchFunction`), and that error is the pass's result — it propagates
out of the loop and aborts the pass (no entry, including `"Z"`, is
processed further; nothing is `set`). -/
theorem C3_counterexample :
    (stateC3.refreshPass 1000).1 =
      Except.error "TypeError: this.fetchFunction is not a function" ∧
    (stateC3.refreshPass 1000).2 = stateC3 :=
  ⟨rfl, rfl⟩

/-- **C3 (amended).** When a refresh fetch fails during a pass (with the
code as written, every attempted refresh fails, since `this.fetchFunction`
is undefined on every constructed object), the error propagates out of the
loop and aborts the pass; but the failure retains the existing still-valid
entry unchanged — the pass leaves the whole cache state untouched, and the
old value remains retrievable via `get` for as long as its original TTL
has not elapsed. -/
theorem C3_refresh_failure_aborts_but_retains {α : Type}
    (c : TimeSeriesCache α) (key : String) (e : CacheEntry α) (tp t : Int)
    (hff : c.fetchFunction = none)
    (hmem : mapGet c.cache key = some e)
    (hvalidPass : tp - e.timestamp ≤ c.expirationDuration)
    (hvalidRead : t - e.timestamp ≤ c.expirationDuration) :
    (c.refreshPass tp).1 =
      Except.error "TypeError: this.fetchFunction is not a function" ∧
    (c.refreshPass tp).2 = c ∧
    ((c.refreshPass tp).2.get key t).1 = some e.data := by
  have hmem' := mapGet_mem c.cache key e hmem
  have hvalid : c.isExpired tp e = false := by
    simp [TimeSeriesCache.isExpired, not_lt.2 hvalidPass]
  have hstate := refreshEntries_state_of_no_fetchFunction c tp hff c.cache
  refine ⟨refreshEntries_error_of_valid_entry c tp key e hff c.cache
      hmem' hvalid, hstate, ?_⟩
  show ((refreshEntries tp c c.cache).2.get key t).1 = some e.data
  rw [hstate, get_of_valid c key t e hmem hvalidRead]

/-- A cache holding one valid entry, for the C3 witness. -/
def stateC3w : TimeSeriesCache Nat :=
  (TimeSeriesCache.new 600000 60000).set "Y" 5 0

theorem C3_refresh_failure_aborts_but_retains_witness :
    (stateC3w.refreshPass 60000).1 =
      Except.error "TypeError: this.fetchFunction is not a function" ∧
    (stateC3w.refreshPass 60000).2 = stateC3w ∧
    ((stateC3w.refreshPass 60000).2.get "Y" 300000).1 = some 5 := by
  exact C3_refresh_failure_aborts_but_retains stateC3w "Y" ⟨5, 0⟩
    60000 300000 rfl (by decide) (by decide) (by decide)

/-! ## Claim C5 — key derivation -/

/-- Splitting at a separator character is unambiguous when the left parts do
not contain the separator. -/
theorem append_sep_inj (l1 : List Char) :
    ∀ (l2 r1 r2 : List Char), '-' ∉ l1 → '-' ∉ l2 →
      l1 ++ '-' :: r1 = l2 ++ '-' :: r2 → l1 = l2 ∧ r1 = r2 := by
  induction l1 with
  | nil =>
      intro l2 r1 r2 _ h2 h
      cases l2 with
      | nil => simpa using h
      | cons b bs =>
          simp only [List.nil_append, List.cons_append, List.cons.injEq] at h
          obtain ⟨hb, -⟩ := h
          subst hb
          exact absurd (List.mem_cons_self _ _) h2
  | cons a as ih =>
      intro l2 r1 r2 h1 h2 h
      cases l2 with
      | nil =>
          simp only [List.cons_append, List.nil_append, List.cons.injEq] at h
          obtain ⟨ha, -⟩ := h
          subst ha
          exact absurd (List.mem_cons_self _ _) h1
      | cons b bs =>
          simp only [List.cons_append, List.cons.injEq] at h
          obtain ⟨hab, htail⟩ := h
          subst hab
          have h1' : '-' ∉ as := fun hm => h1 (List.mem_cons_of_mem _ hm)
          have h2' : '-' ∉ bs := fun hm => h2 (List.mem_cons_of_mem _ hm)
          obtain ⟨hl, hr⟩ := ih bs r1 r2 h1' h2' htail
          exact ⟨by rw [hl], hr⟩

/-- **C5 counterexample.** The claim says two structurally distinct
parameter sets never produce the same key.  False: the parameter sets
`("a-b", "c", "d", "e")` and `("a", "b-c", "d", "e")` are distinct, yet
both derive the key `"a-b-c-d-e"`, because `cacheKey` joins the raw
parameters with `"-"` and the parameters may themselves contain `"-"`. -/
theorem C5_counterexample :
    cacheKey "a-b" "c" "d" "e" = cacheKey "a" "b-c" "d" "e" ∧
    ("a-b", "c", "d", "e") ≠
      (("a", "b-c", "d", "e") : String × String × String × String) := by
  exact ⟨rfl, by decide⟩

/-- **C5 (amended).** `cacheKey` is a deterministic, total function of the
four parameters (it is a plain function, so identical parameter sets always
produce the same key), and it is injective on parameter sets whose
`symbol`, `period` and `start` contain no `'-'` character; distinct
parameter sets with a `'-'` inside a component can collide. -/
theorem C5_cacheKey_injective_on_dashfree
    (s1 p1 a1 b1 s2 p2 a2 b2 : String)
    (hs1 : '-' ∉ s1.data) (hp1 : '-' ∉ p1.data) (ha1 : '-' ∉ a1.data)
    (hs2 : '-' ∉ s2.data) (hp2 : '-' ∉ p2.data) (ha2 : '-' ∉ a2.data)
    (h : cacheKey s1 p1 a1 b1 = cacheKey s2 p2 a2 b2) :
    s1 = s2 ∧ p1 = p2 ∧ a1 = a2 ∧ b1 = b2 := by
  have hdash : ("-" : String).data = ['-'] := rfl
  have hd : s1.data ++ '-' :: (p1.data ++ '-' :: (a1.data ++ '-' :: b1.data)) =
      s2.data ++ '-' :: (p2.data ++ '-' :: (a2.data ++ '-' :: b2.data)) := by
    have hc := congrArg String.data h
    simpa [cacheKey, String.data_append, hdash, List.append_assoc] using hc
  obtain ⟨hs, h1⟩ := append_sep_inj _ _ _ _ hs1 hs2 hd
  obtain ⟨hp, h2⟩ := append_sep_inj _ _ _ _ hp1 hp2 h1
  obtain ⟨ha, h3⟩ := append_sep_inj _ _ _ _ ha1 ha2 h2
  exact ⟨String.ext hs, String.ext hp, String.ext ha, String.ext h3⟩

theorem C5_cacheKey_injective_on_dashfree_witness :
    ("AAPL" : String) = "AAPL" ∧ ("1min" : String) = "1min" ∧
    ("t0" : String) = "t0" ∧ ("t1" : String) = "t1" := by
  exact C5_cacheKey_injective_on_dashfree "AAPL" "1min" "t0" "t1"
    "AAPL" "1min" "t0" "t1" (by decide) (by decide) (by decide)
    (by decide) (by decide) (by decide) rfl

/-! ## Claim C7 — concurrent misses (stampede) -/

/-- The event-loop interleaving in which two `fetchData` calls for the same
key both run their synchronous prefix (`fetchPhase1`: cache probe and, on a
miss, the loader invocation) before either `await` continuation resumes,
and the continuations then run in order A-then-B.  This is exactly the
"two concurrent simultaneous misses" schedule: in Node, everything up to
`await fetchFunction()` runs synchronously when each request handler is
dispatched, and neither fetch has settled yet.  Returns the total number of
loader invocations, the two settled results, and the final cache state. -/
def twoConcurrentMisses {α : Type} (truthy : α → Bool) (c : TimeSeriesCache α)
    (key : String) (fA fB : Unit → Except String α) (t1 t2 t3 t4 : Int) :
    Nat × Except String α × Except String α × TimeSeriesCache α :=
  match fetchPhase1 truthy c key fA t1 with
  | (stepA, c1, nA) =>
    match fetchPhase1 truthy c1 key fB t2 with
    | (stepB, c2, nB) =>
      match (match stepA with
             | FetchStep.done d => (Except.ok d, c2)
             | FetchStep.pending r => fetchPhase2 c2 key r t3) with
      | (rA, c3) =>
        match (match stepB with
               | FetchStep.done d => (Except.ok d, c3)
               | FetchStep.pending r => fetchPhase2 c3 key r t4) with
        | (rB, c4) => (nA + nB, rA, rB, c4)

/-- A loader fulfilling with `1`. -/
def loaderA7 : Unit → Except String Int := fun _ => Except.ok 1

/-- A loader fulfilling with `2`. -/
def loaderB7 : Unit → Except String Int := fun _ => Except.ok 2

/-- **C7 counterexample.** The claim says concurrent simultaneous misses
for the same key collapse to a single in-flight loader invocation and that
duplicate concurrent upstream calls never occur.  False: starting from the
empty cache, with both calls for `"X"` passing the cache probe before
either fetch settles, the loader is invoked twice (once per call), not
once. -/
theorem C7_counterexample :
    (twoConcurrentMisses intTruthy
      (TimeSeriesCache.new 600000 60000 : TimeSeriesCache Int)
      "X" loaderA7 loaderB7 0 0 5 6).1 = 2 :=
  rfl

/-- **C7 (amended).** `fetchData` has no stampede protection: whenever two
calls for the same (absent) key both run their synchronous prefix before
either loader settles, each call invokes its loader (two upstream calls in
flight for one key); each waiter receives its own loader's result, and the
last completed `set` determines the stored entry. -/
theorem C7_no_stampede_protection {α : Type} (truthy : α → Bool)
    (c : TimeSeriesCache α) (key : String) (fA fB : Unit → Except String α)
    (dA dB : α) (t1 t2 t3 t4 : Int)
    (habs : mapGet c.cache key = none)
    (hA : fA () = Except.ok dA) (hB : fB () = Except.ok dB) :
    twoConcurrentMisses truthy c key fA fB t1 t2 t3 t4 =
      (2, Except.ok dA, Except.ok dB, (c.set key dA t3).set key dB t4) ∧
    mapGet ((twoConcurrentMisses truthy c key fA fB t1 t2 t3 t4).2.2.2.cache)
      key = some ⟨dB, t4⟩ := by
  have hg1 := get_of_absent c key t1 habs
  have hg2 := get_of_absent c key t2 habs
  have h : twoConcurrentMisses truthy c key fA fB t1 t2 t3 t4 =
      (2, Except.ok dA, Except.ok dB, (c.set key dA t3).set key dB t4) := by
    simp [twoConcurrentMisses, fetchPhase1, hg1, hg2, fetchPhase2, hA, hB]
  refine ⟨h, ?_⟩
  rw [h]
  exact mapGet_mapSet_self _ _ _

theorem C7_no_stampede_protection_witness :
    twoConcurrentMisses intTruthy
      (TimeSeriesCache.new 600000 60000 : TimeSeriesCache Int)
      "W7" loaderA7 loaderB7 0 1 5 6 =
      (2, Except.ok 1, Except.ok 2,
        ((TimeSeriesCache.new 600000 60000 :
          TimeSeriesCache Int).set "W7" 1 5).set "W7" 2 6) := by
  exact (C7_no_stampede_protection intTruthy
    (TimeSeriesCache.new 600000 60000 : TimeSeriesCache Int)
    "W7" loaderA7 loaderB7 1 2 0 1 5 6 (by decide) rfl rfl).1
